import Mathlib

/-!
Shallow embedding of the Databricks HTTP client glue of the smart-predictor
repository (streamlit_app/databricks_api.py, streamlit_app/dbx_utils.py,
streamlit_app/utils.py, streamlit_app/app.py), together with proofs of the
specification claims about it.

Modelling conventions:
* Bytes are `Nat` values (0..255 in practice); byte strings are `List Nat`.
* The network is an oracle `net : Nat → Response`: the k-th HTTP request made
  by a function receives response `net k`.  `Response.exn` models the requests
  call itself raising (e.g. ConnectionError); `Response.jsonExn` models
  `response.json()` raising; `Option` body fields model JSON keys that may be
  absent (a `none` hit by a Python subscript access is a KeyError, caught by
  the enclosing try/except).
* `requests.Response.raise_for_status()` raises exactly for status codes
  >= 400 (HTTPError for 4xx/5xx); this is transcribed as `400 ≤ r.code`.
* Python exception rendering `str(e)` is modelled by fixed stand-in strings;
  where the source appends `e.response.text`, the model appends `r.text`
  verbatim, as the source does.
* Streamlit UI calls (st.info / st.error / ...) and time.sleep are pure side
  effects with no influence on return values and are elided.
* Each client function returns its result dict together with the trace of the
  HTTP calls it issued, in order.
-/

/-- One entry of the `jobs` array returned by the jobs/list endpoint:
`j.get("settings", {}).get("name")` is `name`, `j["job_id"]` is `job_id`. -/
structure JobEntry where
  name : Option String
  job_id : Int
  deriving DecidableEq

/-- A remote HTTP response, as observed by the client code. -/
structure Response where
  code : Nat
  exn : Bool
  jsonExn : Bool
  text : String
  handle : Option Int
  run_id : Option Int
  lcs : Option String
  rs : Option String
  data : Option String
  errMsg : Option String
  jobs : Option (List JobEntry)
  deriving DecidableEq

/-- A well-formed JSON response with the given status code and no body fields. -/
def emptyResp (c : Nat) : Response :=
  { code := c, exn := false, jsonExn := false, text := "", handle := none,
    run_id := none, lcs := none, rs := none, data := none, errMsg := none,
    jobs := none }

/-- One HTTP call issued by the client, with the request payload fields the
claims talk about.  The `put` overwrite field is `none` for the dbx_utils
variant, whose request body carries no overwrite flag. -/
inductive ApiCall where
  | put (path : String) (contents : String) (overwrite : Option Bool)
  | create (path : String) (overwrite : Bool)
  | addBlock (handle : Int) (data : String)
  | close (handle : Int)
  | runNow (job_id : Int)
  | runsGet (run_id : Int)
  | jobsList
  | read (path : String)
  deriving DecidableEq

/-- The result dict returned by the databricks_api.py functions.  `none`
fields model absent dict keys. -/
structure ApiResult where
  status : String
  message : String
  run_id : Option Int
  result_state : Option String
  content : Option String
  deriving DecidableEq

/-- An error dict with only status and message keys. -/
def errRes (msg : String) : ApiResult :=
  { status := "error", message := msg, run_id := none, result_state := none,
    content := none }

/-- A success dict with only status and message keys. -/
def okRes (msg : String) : ApiResult :=
  { status := "success", message := msg, run_id := none, result_state := none,
    content := none }

/-- Stand-in for `str(e)` of a requests transport exception (no response). -/
def reqExnText : String := "RequestException"

/-- Stand-in for `str(e)` of the HTTPError raised by raise_for_status. -/
def httpErrText (c : Nat) : String := toString c ++ " HTTPError"

/-- Stand-in for `str(e)` of a JSON decoding error. -/
def jsonErrText : String := "JSONDecodeError"

/-- Stand-in for `str(e)` of a KeyError on the named key. -/
def keyErrText (k : String) : String := "KeyError: " ++ k

/-- The base64 alphabet, as in RFC 4648 / Python base64.b64encode. -/
def b64alphabet : List Char :=
  ("ABCDEFGHIJKLMNOPQRSTUVWXYZabcdefghijklmnopqrstuvwxyz0123456789+/").toList

/-- The base64 digit character for a 6-bit value. -/
def b64char (n : Nat) : Char := b64alphabet.getD n 'A'

/-- base64 encoding of a byte list, three input bytes per four output
characters, with `=` padding — Python base64.b64encode. -/
def b64encodeList : List Nat → List Char
  | [] => []
  | [a] => [b64char (a / 4), b64char (a % 4 * 16), '=', '=']
  | [a, b] => [b64char (a / 4), b64char (a % 4 * 16 + b / 16),
               b64char (b % 16 * 4), '=']
  | a :: b :: c :: rest =>
      b64char (a / 4) :: b64char (a % 4 * 16 + b / 16) ::
      b64char (b % 16 * 4 + c / 64) :: b64char (c % 64) :: b64encodeList rest

/-- `base64.b64encode(bs).decode("utf-8")`. -/
def b64encode (bs : List Nat) : String := String.mk (b64encodeList bs)

/-- The lowercase hexadecimal digit for a value below 16. -/
def hexDigit (n : Nat) : Char := ("0123456789abcdef").toList.getD n '0'

/-- Two lowercase hex digits per byte — Python bytes.hex(). -/
def hexEncodeList : List Nat → List Char
  | [] => []
  | b :: rest => hexDigit (b / 16) :: hexDigit (b % 16) :: hexEncodeList rest

/-- `data.hex()`. -/
def hexEncode (bs : List Nat) : String := String.mk (hexEncodeList bs)

/-- The 6-bit value of a base64 digit character, none for non-alphabet. -/
def b64val (c : Char) : Option Nat :=
  if 'A' ≤ c ∧ c ≤ 'Z' then some (c.toNat - 65)
  else if 'a' ≤ c ∧ c ≤ 'z' then some (c.toNat - 97 + 26)
  else if '0' ≤ c ∧ c ≤ '9' then some (c.toNat - 48 + 52)
  else if c = '+' then some 62
  else if c = '/' then some 63
  else none

/-- Strict base64 decoding of a character stream in groups of four, honouring
`=` padding; models `base64.b64decode`, with every malformed input mapped to
`none` (a raised binascii.Error). -/
def b64decodeList : List Char → Option (List Nat)
  | [] => some []
  | a :: b :: c :: d :: rest => do
      let va ← b64val a
      let vb ← b64val b
      if c = '=' then
        if d = '=' ∧ rest = [] then some [va * 4 + vb / 16] else none
      else do
        let vc ← b64val c
        if d = '=' then
          if rest = [] then some [va * 4 + vb / 16, vb % 16 * 16 + vc / 4]
          else none
        else do
          let vd ← b64val d
          let tail ← b64decodeList rest
          some ((va * 4 + vb / 16) :: (vb % 16 * 16 + vc / 4) ::
                (vc % 4 * 64 + vd) :: tail)
  | _ => none

/-- UTF-8 decoding of a byte list, rejecting truncated sequences, stray
continuation bytes, overlong forms, surrogates and out-of-range code points;
models `bytes.decode("utf-8")`, with failures mapped to `none` (a raised
UnicodeDecodeError). -/
def utf8DecodeList : List Nat → Option (List Char)
  | [] => some []
  | b :: rest =>
    if b < 128 then
      (utf8DecodeList rest).map (fun cs => Char.ofNat b :: cs)
    else if 194 ≤ b ∧ b ≤ 223 then
      match rest with
      | b2 :: rest2 =>
        if 128 ≤ b2 ∧ b2 ≤ 191 then
          (utf8DecodeList rest2).map
            (fun cs => Char.ofNat ((b - 192) * 64 + (b2 - 128)) :: cs)
        else none
      | [] => none
    else if 224 ≤ b ∧ b ≤ 239 then
      match rest with
      | b2 :: b3 :: rest3 =>
        if (128 ≤ b2 ∧ b2 ≤ 191) ∧ (128 ≤ b3 ∧ b3 ≤ 191) then
          let cp := (b - 224) * 4096 + (b2 - 128) * 64 + (b3 - 128)
          if cp < 2048 ∨ (55296 ≤ cp ∧ cp ≤ 57343) then none
          else (utf8DecodeList rest3).map (fun cs => Char.ofNat cp :: cs)
        else none
      | _ => none
    else if 240 ≤ b ∧ b ≤ 244 then
      match rest with
      | b2 :: b3 :: b4 :: rest4 =>
        if (128 ≤ b2 ∧ b2 ≤ 191) ∧ (128 ≤ b3 ∧ b3 ≤ 191) ∧
           (128 ≤ b4 ∧ b4 ≤ 191) then
          let cp := (b - 240) * 262144 + (b2 - 128) * 4096 +
                    (b3 - 128) * 64 + (b4 - 128)
          if cp < 65536 ∨ 1114111 < cp then none
          else (utf8DecodeList rest4).map (fun cs => Char.ofNat cp :: cs)
        else none
      | _ => none
    else none

/-- `base64.b64decode(s).decode("utf-8")`, `none` when either step raises. -/
def decodeB64Utf8 (s : String) : Option String :=
  (b64decodeList s.toList).bind (fun bs => (utf8DecodeList bs).map String.mk)

/-- The successive `file_obj.read(chunkSize)` results of the chunked-upload
loop: the byte list split into chunks of `chunkSize` (a zero chunk size makes
`read` return the empty byte string at once, so no chunks). -/
def chunksOf (chunkSize : Nat) (content : List Nat) : List (List Nat) :=
  if h : content = [] ∨ chunkSize = 0 then []
  else content.take chunkSize :: chunksOf chunkSize (content.drop chunkSize)
termination_by content.length
decreasing_by
  have hc : content ≠ [] ∧ chunkSize ≠ 0 := by
    constructor <;> intro hx <;> exact h (by simp [hx])
  have hl : 0 < content.length := List.length_pos.mpr hc.1
  simp only [List.length_drop]
  omega

/-- databricks_api.dbfs_put_single: single-request DBFS upload.  `creds`
models whether DATABRICKS_HOST and DATABRICKS_TOKEN are configured; `content`
is `file_obj.read()` already as bytes (the source utf-8-encodes str input
first). -/
def dbfs_put_single (creds : Bool) (net : Nat → Response) (path : String)
    (content : List Nat) (overwrite : Bool) : ApiResult × List ApiCall :=
  if creds = false then
    (errRes "Databricks credentials not configured", [])
  else if 10 * 1024 * 1024 < content.length then
    (errRes "File too large for single upload. Use chunked upload.", [])
  else
    let r := net 0
    let calls := [ApiCall.put path (b64encode content) (some overwrite)]
    if r.exn then (errRes ("Upload failed: " ++ reqExnText), calls)
    else if 400 ≤ r.code then
      (errRes ("Upload failed: " ++ httpErrText r.code), calls)
    else (okRes ("File uploaded to " ++ path), calls)

/-- The add-block / close loop of databricks_api.dbfs_upload_chunked: reads
`chunkSize` bytes at a time, base64-encodes each chunk into an add-block
request, and on an empty read issues the close request.  `k` is the index of
the next network call, `count` the chunk_count so far.  The success message
elides the floating-point megabyte figure of the source string. -/
def chunkLoop (net : Nat → Response) (handle : Int) (chunkSize : Nat)
    (content : List Nat) (k : Nat) (count : Nat) : ApiResult × List ApiCall :=
  if _h : content = [] ∨ chunkSize = 0 then
    let r := net k
    if r.exn then
      (errRes ("Chunked upload failed: " ++ reqExnText), [ApiCall.close handle])
    else if 400 ≤ r.code then
      (errRes ("Chunked upload failed: " ++ httpErrText r.code ++ " - " ++ r.text),
       [ApiCall.close handle])
    else
      (okRes ("File uploaded successfully in " ++ toString count ++ " chunks"),
       [ApiCall.close handle])
  else
    let chunk := content.take chunkSize
    let r := net k
    if r.exn then
      (errRes ("Chunked upload failed: " ++ reqExnText),
       [ApiCall.addBlock handle (b64encode chunk)])
    else if 400 ≤ r.code then
      (errRes ("Chunked upload failed: " ++ httpErrText r.code ++ " - " ++ r.text),
       [ApiCall.addBlock handle (b64encode chunk)])
    else
      let out := chunkLoop net handle chunkSize (content.drop chunkSize)
        (k + 1) (count + 1)
      (out.1, ApiCall.addBlock handle (b64encode chunk) :: out.2)
termination_by content.length
decreasing_by
  have hc : content ≠ [] ∧ chunkSize ≠ 0 := by
    constructor <;> intro hx <;> exact _h (by simp [hx])
  have hl : 0 < content.length := List.length_pos.mpr hc.1
  simp only [List.length_drop]
  omega

/-- databricks_api.dbfs_upload_chunked: the create / add-block / close
three-phase DBFS upload.  Call 0 is the create request; calls 1.. are the
add-block requests followed by the close request. -/
def dbfs_upload_chunked (creds : Bool) (net : Nat → Response) (path : String)
    (content : List Nat) (overwrite : Bool) (chunkSize : Nat) :
    ApiResult × List ApiCall :=
  if creds = false then
    (errRes "Databricks credentials not configured", [])
  else
    let r := net 0
    let calls := [ApiCall.create path overwrite]
    if r.exn then
      (errRes ("Chunked upload failed: " ++ reqExnText), calls)
    else if 400 ≤ r.code then
      (errRes ("Chunked upload failed: " ++ httpErrText r.code ++ " - " ++ r.text),
       calls)
    else if r.jsonExn then
      (errRes ("Unexpected error: " ++ jsonErrText), calls)
    else
      match r.handle with
      | none => (errRes ("Unexpected error: " ++ keyErrText "handle"), calls)
      | some h =>
        let out := chunkLoop net h chunkSize content 1 0
        (out.1, ApiCall.create path overwrite :: out.2)

/-- databricks_api.upload_to_dbfs_simple: measures the file size with
seek/tell and dispatches to the single-shot path for sizes up to 10MB and to
the chunked path (1MB chunks) above it, with overwrite=True in both cases. -/
def upload_to_dbfs_simple (creds : Bool) (net : Nat → Response)
    (content : List Nat) (dbfs_path : String) : ApiResult × List ApiCall :=
  if creds = false then
    (errRes "Databricks credentials not configured", [])
  else if content.length ≤ 10 * 1024 * 1024 then
    dbfs_put_single creds net dbfs_path content true
  else
    dbfs_upload_chunked creds net dbfs_path content true (1024 * 1024)

/-- Python str() of an optional result_state, rendering `None` as Python
f-strings do. -/
def optStr : Option String → String
  | some s => s
  | none => "None"

/-- The polling loop of databricks_api.run_job: while attempt < 60, issue one
runs/get request per iteration (response `net attempt`); a non-200 response
sleeps, increments attempt and continues; a 200 response is parsed and acted
on by life_cycle_state; non-terminal states increment attempt and continue. -/
def pollLoop (net : Nat → Response) (run_id : Int) (attempt : Nat) :
    ApiResult × List ApiCall :=
  if _h : attempt < 60 then
    let r := net attempt
    if r.exn then
      (errRes ("API call failed: " ++ reqExnText), [ApiCall.runsGet run_id])
    else if r.code ≠ 200 then
      let out := pollLoop net run_id (attempt + 1)
      (out.1, ApiCall.runsGet run_id :: out.2)
    else if r.jsonExn then
      (errRes ("Unexpected error: " ++ jsonErrText), [ApiCall.runsGet run_id])
    else
      match r.lcs with
      | none =>
        (errRes ("Unexpected error: " ++ keyErrText "state"),
         [ApiCall.runsGet run_id])
      | some lc =>
        if lc = "TERMINATED" then
          if r.rs = some "SUCCESS" then
            ({ status := "success", message := "Job completed successfully",
               run_id := some run_id, result_state := r.rs, content := none },
             [ApiCall.runsGet run_id])
          else
            ({ status := "error",
               message := "Job failed with state: " ++ optStr r.rs,
               run_id := some run_id, result_state := r.rs, content := none },
             [ApiCall.runsGet run_id])
        else if lc = "INTERNAL_ERROR" ∨ lc = "SKIPPED" then
          ({ status := "error", message := "Job ended with state: " ++ lc,
             run_id := some run_id, result_state := none, content := none },
           [ApiCall.runsGet run_id])
        else
          let out := pollLoop net run_id (attempt + 1)
          (out.1, ApiCall.runsGet run_id :: out.2)
  else
    ({ status := "error", message := "Job timed out after 60 attempts",
       run_id := some run_id, result_state := none, content := none }, [])
termination_by 60 - attempt

/-- databricks_api.run_job: trigger the run-now endpoint (response `net 0`);
a non-200 trigger response is turned into an error dict carrying the remote
error message and no run_id key; on 200 the run_id is extracted and the
polling loop runs, its attempt-th request receiving response `net (1 +
attempt)`.  The job_params payload field does not influence the result and is
elided. -/
def run_job (creds : Bool) (net : Nat → Response) (job_id : Int) :
    ApiResult × List ApiCall :=
  if creds = false then
    (errRes "Databricks credentials not configured", [])
  else
    let r := net 0
    let calls := [ApiCall.runNow job_id]
    if r.exn then
      (errRes ("API call failed: " ++ reqExnText), calls)
    else if r.code ≠ 200 then
      if r.jsonExn then
        (errRes ("Unexpected error: " ++ jsonErrText), calls)
      else
        (errRes ("API Error " ++ toString r.code ++ ": " ++
                 (r.errMsg.getD "Unknown error")), calls)
    else if r.jsonExn then
      (errRes ("Unexpected error: " ++ jsonErrText), calls)
    else
      match r.run_id with
      | none => (errRes ("Unexpected error: " ++ keyErrText "run_id"), calls)
      | some rid =>
        let out := pollLoop (fun a => net (1 + a)) rid 0
        (out.1, ApiCall.runNow job_id :: out.2)

/-- databricks_api.dbfs_read_file: one dbfs/read request; on 200 the `data`
body field (defaulted to the empty string by `.get`) is base64- and
utf-8-decoded, a decoding exception being caught into an error dict. -/
def dbfs_read_file (creds : Bool) (net : Nat → Response) (dbfs_path : String) :
    ApiResult × List ApiCall :=
  if creds = false then
    (errRes "Databricks credentials not configured", [])
  else
    let r := net 0
    let calls := [ApiCall.read dbfs_path]
    if r.exn then
      (errRes ("Error reading file: " ++ reqExnText), calls)
    else if r.code = 200 then
      if r.jsonExn then
        (errRes ("Error reading file: " ++ jsonErrText), calls)
      else
        let content_b64 := r.data.getD ""
        if content_b64 ≠ "" then
          match decodeB64Utf8 content_b64 with
          | some content =>
            ({ status := "success", message := "", run_id := none,
               result_state := none, content := some content }, calls)
          | none => (errRes ("Error reading file: decode error"), calls)
        else
          (errRes "File is empty or doesn't exist", calls)
    else
      (errRes ("Failed to read file: " ++ r.text), calls)

/-- dbx_utils.upload_file_to_dbfs: sends the file content hex-encoded first
and repeats the request base64-encoded when the first response is not 200;
raise_for_status on the final response propagates to the caller (no
try/except in this variant), modelled as Except.error. -/
def upload_file_to_dbfs (net : Nat → Response) (data : List Nat)
    (dbfs_path : String) : Except String Unit × List ApiCall :=
  let r1 := net 0
  let c1 := [ApiCall.put dbfs_path (hexEncode data) none]
  if r1.exn then (Except.error reqExnText, c1)
  else if r1.code ≠ 200 then
    let r2 := net 1
    let c2 := c1 ++ [ApiCall.put dbfs_path (b64encode data) none]
    if r2.exn then (Except.error reqExnText, c2)
    else if 400 ≤ r2.code then (Except.error (httpErrText r2.code), c2)
    else if r2.jsonExn then (Except.error jsonErrText, c2)
    else (Except.ok (), c2)
  else if r1.jsonExn then (Except.error jsonErrText, c1)
  else (Except.ok (), c1)

/-- The by-name job lookup of dbx_utils.run_job_now: the first job whose
settings name equals the target. -/
def findJobId (jobs : List JobEntry) (target : String) : Option Int :=
  match jobs with
  | [] => none
  | j :: rest =>
    if j.name = some target then some j.job_id else findJobId rest target

/-- dbx_utils.run_job_now: lists jobs (response `net 0`), searches for the
given name, raises ValueError when absent, and otherwise posts run-now
(response `net 1`); raised exceptions propagate (no try/except), modelled as
Except.error. -/
def run_job_now (net : Nat → Response) (job_name : String) :
    Except String Unit × List ApiCall :=
  let r := net 0
  let c1 := [ApiCall.jobsList]
  if r.exn then (Except.error reqExnText, c1)
  else if 400 ≤ r.code then (Except.error (httpErrText r.code), c1)
  else if r.jsonExn then (Except.error jsonErrText, c1)
  else
    match findJobId (r.jobs.getD []) job_name with
    | none =>
      (Except.error ("Job with name '" ++ job_name ++
        "' not found in Databricks workspace."), c1)
    | some jid =>
      let r2 := net 1
      let c2 := c1 ++ [ApiCall.runNow jid]
      if r2.exn then (Except.error reqExnText, c2)
      else if 400 ≤ r2.code then (Except.error (httpErrText r2.code), c2)
      else if r2.jsonExn then (Except.error jsonErrText, c2)
      else (Except.ok (), c2)

/-- utils.safe_dbfs_path: replace spaces by underscores, drop round brackets,
and prefix the per-session FileStore tmp directory. -/
def safe_dbfs_path (session_id : String) (filename : String) : String :=
  let name :=
    (((filename.toList.map (fun c => if c = ' ' then '_' else c)).filter
      (fun c => c ≠ '(')).filter (fun c => c ≠ ')'))
  "/FileStore/tmp/" ++ session_id ++ "/" ++ String.mk name

/-- One entry of the dbfs/list `files` array as consumed by app.py:
`file_info['path']`, `file_info['is_dir']` (subscript access) and
`file_info.get('file_size', 0)`. -/
structure FileInfo where
  path : String
  is_dir : Bool
  file_size : Nat
  deriving DecidableEq

/-- The result dict of databricks_api.dbfs_list_files. -/
structure ListRes where
  status : String
  files : List FileInfo
  deriving DecidableEq

/-- The four candidate remote paths of app.load_predictions_smart, in source
order. -/
def predictionPatterns (session_id : String) : List String :=
  ["/FileStore/results/" ++ session_id ++ "/predictions.csv",
   "/FileStore/results/" ++ session_id ++ "/predictions_sample.csv",
   "/FileStore/results/" ++ session_id ++ "/predictions_direct.csv",
   "/FileStore/tmp/" ++ session_id ++ "/predictions.csv"]

/-- The candidate loop of app.load_predictions_smart: for each pattern, read
it (`read` models dbfs_read_file against the current remote state), and on a
success dict try `parse` (pd.read_csv, whose exception is caught and the loop
continued).  A success dict with no content key raises a KeyError inside the
same try block, which is likewise caught and the loop continued. -/
def tryPatterns {Df : Type} (readF : String → ApiResult)
    (parse : String → Option Df) : List String → Option Df
  | [] => none
  | p :: rest =>
    let r := readF p
    if r.status = "success" then
      match r.content with
      | some c =>
        match parse c with
        | some df => some df
        | none => tryPatterns readF parse rest
      | none => tryPatterns readF parse rest
    else tryPatterns readF parse rest

/-- The per-directory file scan of app.enhanced_debug_prediction_files: every
non-directory csv file that reads and parses successfully is collected (a
parse failure is reported and skipped; txt files are only echoed). -/
def scanFiles {Df : Type} (readF : String → ApiResult)
    (parse : String → Option Df) (files : List FileInfo) :
    List (String × Df) :=
  files.filterMap (fun fi =>
    if fi.path.endsWith ".csv" ∧ fi.is_dir = false then
      let r := readF fi.path
      if r.status = "success" then
        match r.content with
        | some c => (parse c).map (fun df => (fi.path, df))
        | none => none
      else none
    else none)

/-- app.enhanced_debug_prediction_files: list the results and tmp directories
of the session, collect every readable, parseable csv file and return the
first hit, or None when nothing was found.  `listF` models dbfs_list_files
against the current remote state. -/
def enhanced_debug_prediction_files {Df : Type} (listF : String → ListRes)
    (readF : String → ApiResult) (parse : String → Option Df)
    (session_id : String) : Option Df :=
  let base_paths := ["/FileStore/results/" ++ session_id,
                     "/FileStore/tmp/" ++ session_id]
  let found := base_paths.foldl (fun acc base =>
    let lr := listF base
    if lr.status = "success" then acc ++ scanFiles readF parse lr.files
    else acc) []
  match found with
  | [] => none
  | x :: _ => some x.2

/-- app.load_predictions_smart: try the four candidate paths in order and
return the first that reads and parses; otherwise fall back to the enhanced
debug search. -/
def load_predictions_smart {Df : Type} (listF : String → ListRes)
    (readF : String → ApiResult) (parse : String → Option Df)
    (session_id : String) : Option Df :=
  match tryPatterns readF parse (predictionPatterns session_id) with
  | some df => some df
  | none => enhanced_debug_prediction_files listF readF parse session_id

/-! ## Helper lemmas -/

/-- A response on which neither the request nor raise_for_status nor json
parsing raises. -/
def okR (r : Response) : Prop :=
  r.exn = false ∧ r.code < 400 ∧ r.jsonExn = false

/-- chunksOf on an empty read. -/
lemma chunksOf_nil_or_zero (c : Nat) (l : List Nat) (h : l = [] ∨ c = 0) :
    chunksOf c l = [] := by
  rw [chunksOf]
  simp [h]

/-- chunksOf on a non-empty read. -/
lemma chunksOf_cons (c : Nat) (l : List Nat) (h : ¬(l = [] ∨ c = 0)) :
    chunksOf c l = l.take c :: chunksOf c (l.drop c) := by
  rw [chunksOf]
  simp [h]

/-- The number of chunks is the rounded-up quotient of size by chunk size. -/
lemma chunksOf_length (c : Nat) (hc : 0 < c) :
    ∀ n l, List.length l ≤ n → (chunksOf c l).length = (l.length + c - 1) / c := by
  intro n
  induction n with
  | zero =>
    intro l hl
    have : l = [] := List.eq_nil_of_length_eq_zero (Nat.le_zero.mp hl)
    subst this
    rw [chunksOf_nil_or_zero c [] (Or.inl rfl)]
    have h0 : (0 + c - 1) / c = 0 := Nat.div_eq_of_lt (by omega)
    simpa using h0.symm
  | succ n ih =>
    intro l hl
    by_cases hbase : l = [] ∨ c = 0
    · rcases hbase with h | h
      · subst h
        rw [chunksOf_nil_or_zero c [] (Or.inl rfl)]
        have h0 : (0 + c - 1) / c = 0 := Nat.div_eq_of_lt (by omega)
        simpa using h0.symm
      · omega
    · rw [chunksOf_cons c l hbase]
      have hne : l ≠ [] := fun h => hbase (Or.inl h)
      have hlp : 0 < l.length := List.length_pos.mpr hne
      have hdrop : (l.drop c).length = l.length - c := List.length_drop c l
      have ihd := ih (l.drop c) (by omega)
      simp only [List.length_cons, ihd, hdrop]
      rcases Nat.lt_or_ge c l.length with hgt | hle
      · have h3 : l.length - c + c - 1 = (l.length - c - 1) + c := by omega
        have h4 : l.length + c - 1 = (l.length - c - 1) + c + c := by omega
        rw [h3, h4, Nat.add_div_right _ hc, Nat.add_div_right _ hc,
            Nat.add_div_right _ hc]
      · have h1 : l.length - c = 0 := by omega
        have h2 : (0 + c - 1) / c = 0 := Nat.div_eq_of_lt (by omega)
        have h3 : l.length + c - 1 = (l.length - 1) + c := by omega
        rw [h1, h2, h3, Nat.add_div_right _ hc, Nat.div_eq_of_lt (by omega)]

/-- With only non-raising responses, the chunk loop issues one add-block per
chunk followed by the close call and reports success. -/
lemma chunkLoop_ok (net : Nat → Response) (hnd : Int) (c : Nat)
    (hok : ∀ i, okR (net i)) :
    ∀ n content k count, List.length content ≤ n →
      (chunkLoop net hnd c content k count).1.status = "success" ∧
      (chunkLoop net hnd c content k count).2 =
        (chunksOf c content).map (fun ch => ApiCall.addBlock hnd (b64encode ch))
          ++ [ApiCall.close hnd] := by
  intro n
  induction n with
  | zero =>
    intro content k count hl
    have hc : content = [] := List.eq_nil_of_length_eq_zero (Nat.le_zero.mp hl)
    subst hc
    rw [chunkLoop, chunksOf_nil_or_zero c [] (Or.inl rfl)]
    obtain ⟨he, hcode, -⟩ := hok k
    simp [he, hcode, okRes, Nat.not_le.mpr hcode]
  | succ n ih =>
    intro content k count hl
    by_cases hbase : content = [] ∨ c = 0
    · rw [chunkLoop, chunksOf_nil_or_zero c content hbase]
      obtain ⟨he, hcode, -⟩ := hok k
      simp [hbase, he, hcode, okRes, Nat.not_le.mpr hcode]
    · rw [chunkLoop, chunksOf_cons c content hbase]
      obtain ⟨he, hcode, -⟩ := hok k
      have hne : content ≠ [] := fun h => hbase (Or.inl h)
      have hcp : c ≠ 0 := fun h => hbase (Or.inr h)
      have hlp : 0 < content.length := List.length_pos.mpr hne
      have hdl : (content.drop c).length ≤ n := by
        have := List.length_drop c content
        omega
      have ihd := ih (content.drop c) (k + 1) (count + 1) hdl
      simp [hbase, he, hcode, Nat.not_le.mpr hcode, ihd.1, ihd.2]

/-- If the first j add-block responses are non-raising and the response to
add-block j (counting from 0) is a 4xx/5xx, the chunk loop stops at that
add-block: the result is the error dict carrying the remote response text and
the trace consists of the first j+1 add-block calls only. -/
lemma chunkLoop_fail (net : Nat → Response) (hnd : Int) (c : Nat) :
    ∀ n content k count j, List.length content ≤ n →
      j < (chunksOf c content).length →
      (∀ i, i < j → okR (net (k + i))) →
      (net (k + j)).exn = false → 400 ≤ (net (k + j)).code →
      (chunkLoop net hnd c content k count).1 =
        errRes ("Chunked upload failed: " ++ httpErrText (net (k + j)).code
          ++ " - " ++ (net (k + j)).text) ∧
      (chunkLoop net hnd c content k count).2 =
        ((chunksOf c content).take (j + 1)).map
          (fun ch => ApiCall.addBlock hnd (b64encode ch)) := by
  intro n
  induction n with
  | zero =>
    intro content k count j hl hj _ _ _
    have hc : content = [] := List.eq_nil_of_length_eq_zero (Nat.le_zero.mp hl)
    rw [hc, chunksOf_nil_or_zero c [] (Or.inl rfl)] at hj
    simp at hj
  | succ n ih =>
    intro content k count j hl hj hpre hexn hcode
    by_cases hbase : content = [] ∨ c = 0
    · rw [chunksOf_nil_or_zero c content hbase] at hj
      simp at hj
    · rw [chunksOf_cons c content hbase] at hj ⊢
      rw [chunkLoop]
      cases j with
      | zero =>
        simp only [Nat.add_zero] at hexn hcode
        simp [hbase, hexn, hcode]
      | succ j' =>
        obtain ⟨he0, hc0, -⟩ := hpre 0 (Nat.succ_pos j')
        simp only [Nat.add_zero] at he0 hc0
        have hne : content ≠ [] := fun h => hbase (Or.inl h)
        have hcp : c ≠ 0 := fun h => hbase (Or.inr h)
        have hlp : 0 < content.length := List.length_pos.mpr hne
        have hdl : (content.drop c).length ≤ n := by
          have := List.length_drop c content
          omega
        have hsh : ∀ i, i < j' → okR (net (k + 1 + i)) := by
          intro i hi
          have := hpre (i + 1) (by omega)
          have harith : k + (i + 1) = k + 1 + i := by omega
          rwa [harith] at this
        have harith2 : k + (j' + 1) = k + 1 + j' := by omega
        rw [harith2] at hexn hcode
        have hj' : j' < (chunksOf c (content.drop c)).length := by
          simpa using hj
        have ihd := ih (content.drop c) (k + 1) (count + 1) j' hdl hj' hsh
          hexn hcode
        rw [harith2]
        simp [hbase, he0, hc0, Nat.not_le.mpr hc0, ihd.1, ihd.2]

/-- A success result of the chunk loop implies that the close call was issued
as the final call, after one add-block per chunk, and that the close response
raised nothing. -/
lemma chunkLoop_success_close (net : Nat → Response) (hnd : Int) (c : Nat) :
    ∀ n content k count, List.length content ≤ n →
      (chunkLoop net hnd c content k count).1.status = "success" →
      (chunkLoop net hnd c content k count).2 =
        (chunksOf c content).map (fun ch => ApiCall.addBlock hnd (b64encode ch))
          ++ [ApiCall.close hnd] ∧
      (net (k + (chunksOf c content).length)).exn = false ∧
      (net (k + (chunksOf c content).length)).code < 400 := by
  intro n
  induction n with
  | zero =>
    intro content k count hl hs
    have hc : content = [] := List.eq_nil_of_length_eq_zero (Nat.le_zero.mp hl)
    subst hc
    rw [chunkLoop] at hs ⊢
    rw [chunksOf_nil_or_zero c [] (Or.inl rfl)]
    by_cases he : (net k).exn
    · simp [he, errRes] at hs
    · by_cases hco : 400 ≤ (net k).code
      · simp [he, hco, errRes] at hs
      · simp [he, hco, Bool.not_eq_true] at hs ⊢
        omega
  | succ n ih =>
    intro content k count hl hs
    by_cases hbase : content = [] ∨ c = 0
    · rw [chunkLoop] at hs ⊢
      rw [chunksOf_nil_or_zero c content hbase]
      by_cases he : (net k).exn
      · simp [hbase, he, errRes] at hs
      · by_cases hco : 400 ≤ (net k).code
        · simp [hbase, he, hco, errRes] at hs
        · simp [hbase, he, hco, Bool.not_eq_true] at hs ⊢
          omega
    · rw [chunkLoop] at hs ⊢
      rw [chunksOf_cons c content hbase]
      by_cases he : (net k).exn
      · simp [hbase, he, errRes] at hs
      · by_cases hco : 400 ≤ (net k).code
        · simp [hbase, he, hco, errRes] at hs
        · have hne : content ≠ [] := fun h => hbase (Or.inl h)
          have hlp : 0 < content.length := List.length_pos.mpr hne
          have hcp : c ≠ 0 := fun h => hbase (Or.inr h)
          have hdl : (content.drop c).length ≤ n := by
            have := List.length_drop c content
            omega
          simp [hbase, he, hco] at hs
          have ihd := ih (content.drop c) (k + 1) (count + 1) hdl hs
          have harith : k + 1 + (chunksOf c (content.drop c)).length =
              k + ((chunksOf c (content.drop c)).length + 1) := by omega
          rw [harith] at ihd
          simp [hbase, he, hco, ihd.1, ihd.2.1, ihd.2.2]

/-- The chunk loop always returns a status of success or error. -/
lemma chunkLoop_status (net : Nat → Response) (hnd : Int) (c : Nat) :
    ∀ n content k count, List.length content ≤ n →
      (chunkLoop net hnd c content k count).1.status = "success" ∨
      (chunkLoop net hnd c content k count).1.status = "error" := by
  intro n
  induction n with
  | zero =>
    intro content k count hl
    have hc : content = [] := List.eq_nil_of_length_eq_zero (Nat.le_zero.mp hl)
    subst hc
    rw [chunkLoop]
    by_cases he : (net k).exn
    · simp [he, errRes]
    · by_cases hco : 400 ≤ (net k).code
      · simp [he, hco, errRes]
      · simp [he, hco, okRes]
  | succ n ih =>
    intro content k count hl
    by_cases hbase : content = [] ∨ c = 0
    · rw [chunkLoop]
      by_cases he : (net k).exn
      · simp [hbase, he, errRes]
      · by_cases hco : 400 ≤ (net k).code
        · simp [hbase, he, hco, errRes]
        · simp [hbase, he, hco, okRes]
    · rw [chunkLoop]
      by_cases he : (net k).exn
      · simp [hbase, he, errRes]
      · by_cases hco : 400 ≤ (net k).code
        · simp [hbase, he, hco, errRes]
        · have hne : content ≠ [] := fun h => hbase (Or.inl h)
          have hlp : 0 < content.length := List.length_pos.mpr hne
          have hcp : c ≠ 0 := fun h => hbase (Or.inr h)
          have hdl : (content.drop c).length ≤ n := by
            have := List.length_drop c content
            omega
          have ihd := ih (content.drop c) (k + 1) (count + 1) hdl
          simpa [hbase, he, hco] using ihd

/-- The chunk loop never issues more calls than one per chunk plus the close
call, no matter what the remote answers: no step is ever retried. -/
lemma chunkLoop_calls_le (net : Nat → Response) (hnd : Int) (c : Nat) :
    ∀ n content k count, List.length content ≤ n →
      (chunkLoop net hnd c content k count).2.length ≤
        (chunksOf c content).length + 1 := by
  intro n
  induction n with
  | zero =>
    intro content k count hl
    have hc : content = [] := List.eq_nil_of_length_eq_zero (Nat.le_zero.mp hl)
    subst hc
    rw [chunkLoop]
    by_cases he : (net k).exn
    · simp [he]
    · by_cases hco : 400 ≤ (net k).code
      · simp [he, hco]
      · simp [he, hco]
  | succ n ih =>
    intro content k count hl
    by_cases hbase : content = [] ∨ c = 0
    · rw [chunkLoop]
      by_cases he : (net k).exn
      · simp [hbase, he]
      · by_cases hco : 400 ≤ (net k).code
        · simp [hbase, he, hco]
        · simp [hbase, he, hco]
    · rw [chunkLoop, chunksOf_cons c content hbase]
      by_cases he : (net k).exn
      · simp [hbase, he]
      · by_cases hco : 400 ≤ (net k).code
        · simp [hbase, he, hco]
        · have hne : content ≠ [] := fun h => hbase (Or.inl h)
          have hlp : 0 < content.length := List.length_pos.mpr hne
          have hcp : c ≠ 0 := fun h => hbase (Or.inr h)
          have hdl : (content.drop c).length ≤ n := by
            have := List.length_drop c content
            omega
          have ihd := ih (content.drop c) (k + 1) (count + 1) hdl
          simp only [hbase, he, hco]
          simp only [List.length_cons]
          simp [hbase, he, hco]
          omega

/-- Every add-block call issued by the chunk loop carries the base64 encoding
of one of the chunks of the content. -/
lemma chunkLoop_addBlock_data (net : Nat → Response) (hnd : Int) (c : Nat) :
    ∀ n content k count, List.length content ≤ n →
      ∀ hd d, ApiCall.addBlock hd d ∈ (chunkLoop net hnd c content k count).2 →
        ∃ ch ∈ chunksOf c content, d = b64encode ch := by
  intro n
  induction n with
  | zero =>
    intro content k count hl hd d hmem
    have hc : content = [] := List.eq_nil_of_length_eq_zero (Nat.le_zero.mp hl)
    subst hc
    rw [chunkLoop] at hmem
    by_cases he : (net k).exn
    · simp [he] at hmem
    · by_cases hco : 400 ≤ (net k).code
      · simp [he, hco] at hmem
      · simp [he, hco] at hmem
  | succ n ih =>
    intro content k count hl hd d hmem
    by_cases hbase : content = [] ∨ c = 0
    · rw [chunkLoop] at hmem
      by_cases he : (net k).exn
      · simp [hbase, he] at hmem
      · by_cases hco : 400 ≤ (net k).code
        · simp [hbase, he, hco] at hmem
        · simp [hbase, he, hco] at hmem
    · rw [chunkLoop] at hmem
      rw [chunksOf_cons c content hbase]
      by_cases he : (net k).exn
      · simp [hbase, he] at hmem
        exact ⟨content.take c, List.mem_cons_self _ _, hmem.2⟩
      · by_cases hco : 400 ≤ (net k).code
        · simp [hbase, he, hco] at hmem
          exact ⟨content.take c, List.mem_cons_self _ _, hmem.2⟩
        · have hne : content ≠ [] := fun h => hbase (Or.inl h)
          have hlp : 0 < content.length := List.length_pos.mpr hne
          have hcp : c ≠ 0 := fun h => hbase (Or.inr h)
          have hdl : (content.drop c).length ≤ n := by
            have := List.length_drop c content
            omega
          simp [hbase, he, hco] at hmem
          rcases hmem with ⟨-, hd2⟩ | hmem
          · exact ⟨content.take c, List.mem_cons_self _ _, hd2⟩
          · obtain ⟨ch, hch, hd2⟩ :=
              ih (content.drop c) (k + 1) (count + 1) hdl hd d hmem
            exact ⟨ch, List.mem_cons_of_mem _ hch, hd2⟩

/-- The timeout dict returned when the attempt bound is exhausted. -/
def timeoutRes (run_id : Int) : ApiResult :=
  { status := "error", message := "Job timed out after 60 attempts",
    run_id := some run_id, result_state := none, content := none }

/-- Once the attempt counter reaches the bound, the poll loop stops at once. -/
lemma pollLoop_at_bound (net : Nat → Response) (rid : Int) (a : Nat)
    (h : ¬a < 60) : pollLoop net rid a = (timeoutRes rid, []) := by
  rw [pollLoop]
  simp [h, timeoutRes]

/-- The poll loop issues at most 60 - a status requests from attempt a on,
whatever the remote answers. -/
lemma pollLoop_len (net : Nat → Response) (rid : Int) :
    ∀ n a, 60 - a ≤ n → (pollLoop net rid a).2.length ≤ 60 - a := by
  intro n
  induction n with
  | zero =>
    intro a ha
    have h60 : ¬a < 60 := by omega
    rw [pollLoop_at_bound net rid a h60]
    simp
  | succ n ih =>
    intro a ha
    by_cases h60 : a < 60
    · rw [pollLoop]
      by_cases he : (net a).exn
      · simp [h60, he]
        omega
      · by_cases hc : (net a).code = 200
        · by_cases hj : (net a).jsonExn
          · simp [h60, he, hc, hj]
            omega
          · rcases hl : (net a).lcs with - | lc
            · simp [h60, he, hc, hj, hl]
              omega
            · by_cases ht : lc = "TERMINATED"
              · by_cases hr : (net a).rs = some "SUCCESS"
                · simp [h60, he, hc, hj, hl, ht, hr]
                  omega
                · simp [h60, he, hc, hj, hl, ht, hr]
                  omega
              · by_cases hie : lc = "INTERNAL_ERROR" ∨ lc = "SKIPPED"
                · simp [h60, he, hc, hj, hl, ht, hie]
                  omega
                · have ihd := ih (a + 1) (by omega)
                  simp [h60, he, hc, hj, hl, ht, hie]
                  omega
        · have ihd := ih (a + 1) (by omega)
          simp [h60, he, hc]
          omega
    · rw [pollLoop_at_bound net rid a h60]
      simp

/-- When every status poll yields a non-200 response without raising, the
loop increments the attempt counter on every iteration, polls exactly once
per remaining attempt and returns the timeout dict. -/
lemma pollLoop_all_non200 (net : Nat → Response) (rid : Int)
    (hnet : ∀ i, (net i).exn = false ∧ (net i).code ≠ 200) :
    ∀ n a, 60 - a ≤ n →
      pollLoop net rid a =
        (timeoutRes rid, List.replicate (60 - a) (ApiCall.runsGet rid)) := by
  intro n
  induction n with
  | zero =>
    intro a ha
    have h60 : ¬a < 60 := by omega
    rw [pollLoop_at_bound net rid a h60]
    have : 60 - a = 0 := by omega
    simp [this]
  | succ n ih =>
    intro a ha
    by_cases h60 : a < 60
    · obtain ⟨he, hc⟩ := hnet a
      rw [pollLoop]
      have ihd := ih (a + 1) (by omega)
      have hrep : 60 - a = (60 - (a + 1)) + 1 := by omega
      rw [hrep, List.replicate_succ]
      simp [h60, he, hc, ihd]
    · rw [pollLoop_at_bound net rid a h60]
      have : 60 - a = 0 := by omega
      simp [this]

/-- The poll loop always returns a status of success or error. -/
lemma pollLoop_status (net : Nat → Response) (rid : Int) :
    ∀ n a, 60 - a ≤ n →
      (pollLoop net rid a).1.status = "success" ∨
      (pollLoop net rid a).1.status = "error" := by
  intro n
  induction n with
  | zero =>
    intro a ha
    have h60 : ¬a < 60 := by omega
    rw [pollLoop_at_bound net rid a h60]
    simp [timeoutRes]
  | succ n ih =>
    intro a ha
    by_cases h60 : a < 60
    · rw [pollLoop]
      by_cases he : (net a).exn
      · simp [h60, he, errRes]
      · by_cases hc : (net a).code = 200
        · by_cases hj : (net a).jsonExn
          · simp [h60, he, hc, hj, errRes]
          · rcases hl : (net a).lcs with - | lc
            · simp [h60, he, hc, hj, hl, errRes]
            · by_cases ht : lc = "TERMINATED"
              · by_cases hr : (net a).rs = some "SUCCESS"
                · simp [h60, he, hc, hj, hl, ht, hr]
                · simp [h60, he, hc, hj, hl, ht, hr]
              · by_cases hie : lc = "INTERNAL_ERROR" ∨ lc = "SKIPPED"
                · simp [h60, he, hc, hj, hl, ht, hie]
                · have ihd := ih (a + 1) (by omega)
                  simpa [h60, he, hc, hj, hl, ht, hie] using ihd
        · have ihd := ih (a + 1) (by omega)
          simpa [h60, he, hc] using ihd
    · rw [pollLoop_at_bound net rid a h60]
      simp [timeoutRes]

/-- If every add-block response is non-raising but the close response is a
4xx/5xx, the chunk loop returns the error dict carrying the close response
text (after issuing all add-block calls and the close call). -/
lemma chunkLoop_close_fail (net : Nat → Response) (hnd : Int) (c : Nat) :
    ∀ n content k count, List.length content ≤ n →
      (∀ i, i < (chunksOf c content).length → okR (net (k + i))) →
      (net (k + (chunksOf c content).length)).exn = false →
      400 ≤ (net (k + (chunksOf c content).length)).code →
      (chunkLoop net hnd c content k count).1 =
        errRes ("Chunked upload failed: " ++
          httpErrText (net (k + (chunksOf c content).length)).code ++ " - " ++
          (net (k + (chunksOf c content).length)).text) ∧
      (chunkLoop net hnd c content k count).2 =
        (chunksOf c content).map (fun ch => ApiCall.addBlock hnd (b64encode ch))
          ++ [ApiCall.close hnd] := by
  intro n
  induction n with
  | zero =>
    intro content k count hl hpre hexn hcode
    have hc : content = [] := List.eq_nil_of_length_eq_zero (Nat.le_zero.mp hl)
    subst hc
    rw [chunksOf_nil_or_zero c [] (Or.inl rfl)] at hpre hexn hcode ⊢
    simp only [List.length_nil, Nat.add_zero] at hexn hcode
    rw [chunkLoop]
    simp [hexn, hcode]
  | succ n ih =>
    intro content k count hl hpre hexn hcode
    by_cases hbase : content = [] ∨ c = 0
    · rw [chunksOf_nil_or_zero c content hbase] at hpre hexn hcode ⊢
      simp only [List.length_nil, Nat.add_zero] at hexn hcode
      rw [chunkLoop]
      simp [hbase, hexn, hcode]
    · rw [chunksOf_cons c content hbase] at hpre hexn hcode ⊢
      rw [chunkLoop]
      obtain ⟨he0, hc0, -⟩ := by
        have := hpre 0 (by simp)
        simpa using this
      have hne : content ≠ [] := fun h => hbase (Or.inl h)
      have hcp : c ≠ 0 := fun h => hbase (Or.inr h)
      have hlp : 0 < content.length := List.length_pos.mpr hne
      have hdl : (content.drop c).length ≤ n := by
        have := List.length_drop c content
        omega
      have hsh : ∀ i, i < (chunksOf c (content.drop c)).length →
          okR (net (k + 1 + i)) := by
        intro i hi
        have := hpre (i + 1) (by simp; omega)
        have harith : k + (i + 1) = k + 1 + i := by omega
        rwa [harith] at this
      have harith2 : k + (content.take c :: chunksOf c (content.drop c)).length
          = k + 1 + (chunksOf c (content.drop c)).length := by
        simp
        omega
      rw [harith2] at hexn hcode
      have ihd := ih (content.drop c) (k + 1) (count + 1) hdl hsh hexn hcode
      rw [harith2]
      simp [hbase, he0, hc0, Nat.not_le.mpr hc0, ihd.1, ihd.2]

/-- A name absent from the jobs list makes the lookup fail. -/
lemma findJobId_eq_none (jobs : List JobEntry) (target : String)
    (h : ∀ j ∈ jobs, j.name ≠ some target) : findJobId jobs target = none := by
  induction jobs with
  | nil => rfl
  | cons j rest ih =>
    rw [findJobId]
    have hj : j.name ≠ some target := h j (List.mem_cons_self j rest)
    simp [hj]
    exact ih (fun j2 hm => h j2 (List.mem_cons_of_mem j hm))

/-- The candidate loop returns the first pattern whose read succeeds and
whose content parses, in list order. -/
lemma tryPatterns_eq_findSome {Df : Type} (readF : String → ApiResult)
    (parse : String → Option Df) :
    ∀ ps : List String, tryPatterns readF parse ps =
      ps.findSome? (fun p =>
        if (readF p).status = "success" then (readF p).content.bind parse
        else none) := by
  intro ps
  induction ps with
  | nil => rfl
  | cons p rest ih =>
    rw [tryPatterns, List.findSome?_cons]
    by_cases hs : (readF p).status = "success"
    · rcases hc : (readF p).content with - | c
      · simp [hs, hc, ih]
      · rcases hp : parse c with - | df
        · simp [hs, hc, hp, ih]
        · simp [hs, hc, hp]
    · simp [hs, ih]

/-- Whether a call is an add-block request. -/
def isAddBlock : ApiCall → Bool
  | ApiCall.addBlock _ _ => true
  | _ => false

/-- Whether a call is a runs/get status request. -/
def isRunsGet : ApiCall → Bool
  | ApiCall.runsGet _ => true
  | _ => false

/-- Counting add-block calls over a pure add-block trace gives its length. -/
lemma countP_isAddBlock_map (hnd : Int) (l : List (List Nat)) :
    ((l.map (fun ch => ApiCall.addBlock hnd (b64encode ch))).countP isAddBlock)
      = l.length := by
  induction l with
  | nil => rfl
  | cons ch rest ih => simp [List.countP_cons, isAddBlock, ih]

/-- The filename transformation exactly as the claim words it: every space
becomes an underscore, every round bracket is removed, and every other
character is kept unchanged, in one pass. -/
def sanitizeSpec (filename : String) : String :=
  String.mk (filename.toList.foldr
    (fun c acc =>
      if c = ' ' then '_' :: acc
      else if c = '(' ∨ c = ')' then acc
      else c :: acc) [])

/-- The replace-then-filter pipeline of the source equals the one-pass
character transformation of the claim. -/
lemma replace_filter_eq_foldr :
    ∀ l : List Char,
      (((l.map (fun c => if c = ' ' then '_' else c)).filter
        (fun c => c ≠ '(')).filter (fun c => c ≠ ')')) =
      l.foldr
        (fun c acc =>
          if c = ' ' then '_' :: acc
          else if c = '(' ∨ c = ')' then acc
          else c :: acc) [] := by
  intro l
  induction l with
  | nil => rfl
  | cons c rest ih =>
    by_cases hsp : c = ' '
    · subst hsp
      simpa [List.filter_filter] using ih
    · by_cases hop : c = '('
      · subst hop
        simpa [List.filter_filter] using ih
      · by_cases hcl : c = ')'
        · subst hcl
          simpa [List.filter_filter] using ih
        · simpa [hsp, hop, hcl, List.filter_filter] using ih

/-- C10: for every session_id and filename, safe_dbfs_path deterministically
returns "/FileStore/tmp/" ++ session_id ++ "/" ++ name, where name is the
filename with every space replaced by an underscore and every round bracket
removed, and no other character of the filename or the session_id altered. -/
theorem claim_C10 (session_id filename : String) :
    safe_dbfs_path session_id filename =
      "/FileStore/tmp/" ++ session_id ++ "/" ++ sanitizeSpec filename := by
  rw [safe_dbfs_path, sanitizeSpec, replace_filter_eq_foldr]

/-- C5: a trigger request answered non-200 makes run_job return an error dict
without a run_id key, and in the lookup-by-name variant an absent job name
makes run_job_now raise ValueError before any run-now request is sent. -/
theorem claim_C5 :
    (∀ creds net job_id, (net 0).code ≠ 200 →
      (run_job creds net job_id).1.status = "error" ∧
      (run_job creds net job_id).1.run_id = none) ∧
    (∀ net job_name, (net 0).exn = false → (net 0).code < 400 →
      (net 0).jsonExn = false →
      (∀ j ∈ (net 0).jobs.getD [], j.name ≠ some job_name) →
      (run_job_now net job_name).1 =
        Except.error ("Job with name '" ++ job_name ++
          "' not found in Databricks workspace.") ∧
      (run_job_now net job_name).2 = [ApiCall.jobsList]) := by
  constructor
  · intro creds net job_id hc
    rcases creds with - | -
    · simp [run_job, errRes]
    · rw [run_job]
      by_cases he : (net 0).exn
      · simp [he, errRes]
      · by_cases hj : (net 0).jsonExn
        · simp [he, hc, hj, errRes]
        · simp [he, hc, hj, errRes]
  · intro net job_name hexn hcode hjson habs
    have hfind : findJobId ((net 0).jobs.getD []) job_name = none :=
      findJobId_eq_none _ _ habs
    rw [run_job_now]
    simp [hexn, Nat.not_le.mpr hcode, hjson, hfind]

/-- C9: every public client operation of databricks_api.py returns, for
every input and every transport outcome, a dict whose status key is either
"success" or "error"; every exception raised inside is caught and converted
into an error dict, so nothing propagates to the caller. -/
theorem claim_C9 :
    (∀ creds net path content ov,
      (dbfs_put_single creds net path content ov).1.status = "success" ∨
      (dbfs_put_single creds net path content ov).1.status = "error") ∧
    (∀ creds net path content ov c,
      (dbfs_upload_chunked creds net path content ov c).1.status = "success" ∨
      (dbfs_upload_chunked creds net path content ov c).1.status = "error") ∧
    (∀ creds net content path,
      (upload_to_dbfs_simple creds net content path).1.status = "success" ∨
      (upload_to_dbfs_simple creds net content path).1.status = "error") ∧
    (∀ creds net job_id,
      (run_job creds net job_id).1.status = "success" ∨
      (run_job creds net job_id).1.status = "error") ∧
    (∀ creds net path,
      (dbfs_read_file creds net path).1.status = "success" ∨
      (dbfs_read_file creds net path).1.status = "error") := by
  have hput : ∀ creds net path content ov,
      (dbfs_put_single creds net path content ov).1.status = "success" ∨
      (dbfs_put_single creds net path content ov).1.status = "error" := by
    intro creds net path content ov
    rcases creds with - | -
    · simp [dbfs_put_single, errRes]
    · rw [dbfs_put_single]
      by_cases hl : 10 * 1024 * 1024 < content.length
      · simp [hl, errRes]
      · by_cases he : (net 0).exn
        · simp [hl, he, errRes]
        · by_cases hc : 400 ≤ (net 0).code
          · simp [hl, he, hc, errRes]
          · simp [hl, he, hc, okRes]
  have hchunk : ∀ creds net path content ov c,
      (dbfs_upload_chunked creds net path content ov c).1.status = "success" ∨
      (dbfs_upload_chunked creds net path content ov c).1.status = "error" := by
    intro creds net path content ov c
    rcases creds with - | -
    · simp [dbfs_upload_chunked, errRes]
    · rw [dbfs_upload_chunked]
      by_cases he : (net 0).exn
      · simp [he, errRes]
      · by_cases hc : 400 ≤ (net 0).code
        · simp [he, hc, errRes]
        · by_cases hj : (net 0).jsonExn
          · simp [he, hc, hj, errRes]
          · rcases hh : (net 0).handle with - | hnd
            · simp [he, hc, hj, hh, errRes]
            · have := chunkLoop_status net hnd c content.length content 1 0
                le_rfl
              simpa [he, hc, hj, hh] using this
  refine ⟨hput, hchunk, ?_, ?_, ?_⟩
  · intro creds net content path
    rcases creds with - | -
    · simp [upload_to_dbfs_simple, errRes]
    · rw [upload_to_dbfs_simple]
      by_cases hl : content.length ≤ 10 * 1024 * 1024
      · simpa [hl] using hput true net path content true
      · simpa [hl] using hchunk true net path content true (1024 * 1024)
  · intro creds net job_id
    rcases creds with - | -
    · simp [run_job, errRes]
    · rw [run_job]
      by_cases he : (net 0).exn
      · simp [he, errRes]
      · by_cases hc : (net 0).code = 200
        · by_cases hj : (net 0).jsonExn
          · simp [he, hc, hj, errRes]
          · rcases hr : (net 0).run_id with - | rid
            · simp [he, hc, hj, hr, errRes]
            · have := pollLoop_status (fun a => net (1 + a)) rid 60 0 (by omega)
              simpa [he, hc, hj, hr] using this
        · by_cases hj : (net 0).jsonExn
          · simp [he, hc, hj, errRes]
          · simp [he, hc, hj, errRes]
  · intro creds net path
    rcases creds with - | -
    · simp [dbfs_read_file, errRes]
    · rw [dbfs_read_file]
      by_cases he : (net 0).exn
      · simp [he, errRes]
      · by_cases hc : (net 0).code = 200
        · by_cases hj : (net 0).jsonExn
          · simp [he, hc, hj, errRes]
          · by_cases hd : (net 0).data.getD "" ≠ ""
            · rcases hdec : decodeB64Utf8 ((net 0).data.getD "") with - | s
              · simp [he, hc, hj, hd, hdec, errRes]
              · simp [he, hc, hj, hd, hdec]
            · simp [he, hc, hj, hd, errRes]
        · simp [he, hc, errRes]

/-- C1: the unified upload uses exactly one single-shot write call whenever
the payload size is at most the 10MB threshold (the code branches on
size <= threshold, so a payload exactly at the threshold takes the
single-shot path), and above the threshold it runs the three-phase
create/add-block/close protocol issuing exactly one add-block call per chunk,
i.e. ceil(size / chunk_size) of them with the 1MB chunk size. -/
theorem claim_C1 (net : Nat → Response) (content : List Nat) (path : String)
    (hnd : Int) (hok : ∀ i, okR (net i)) (hh : (net 0).handle = some hnd) :
    (content.length ≤ 10 * 1024 * 1024 →
      (upload_to_dbfs_simple true net content path).2 =
        [ApiCall.put path (b64encode content) (some true)]) ∧
    (10 * 1024 * 1024 < content.length →
      (upload_to_dbfs_simple true net content path).1.status = "success" ∧
      (upload_to_dbfs_simple true net content path).2 =
        ApiCall.create path true ::
          ((chunksOf (1024 * 1024) content).map
            (fun ch => ApiCall.addBlock hnd (b64encode ch)) ++
           [ApiCall.close hnd]) ∧
      ((upload_to_dbfs_simple true net content path).2.countP isAddBlock) =
        (content.length + 1024 * 1024 - 1) / (1024 * 1024)) := by
  obtain ⟨he0, hc0, hj0⟩ := hok 0
  constructor
  · intro hlen
    rw [upload_to_dbfs_simple, dbfs_put_single]
    simp [hlen, Nat.not_lt.mpr hlen, he0, Nat.not_le.mpr hc0]
  · intro hgt
    have hlen' : ¬content.length ≤ 10 * 1024 * 1024 := Nat.not_le.mpr hgt
    have hco := chunkLoop_ok net hnd (1024 * 1024) hok content.length content
      1 0 le_rfl
    have htr : (upload_to_dbfs_simple true net content path).2 =
        ApiCall.create path true ::
          ((chunksOf (1024 * 1024) content).map
            (fun ch => ApiCall.addBlock hnd (b64encode ch)) ++
           [ApiCall.close hnd]) := by
      rw [upload_to_dbfs_simple, dbfs_upload_chunked]
      simp [hlen', he0, Nat.not_le.mpr hc0, hj0, hh, hco.2]
    have hst : (upload_to_dbfs_simple true net content path).1.status =
        "success" := by
      rw [upload_to_dbfs_simple, dbfs_upload_chunked]
      simp [hlen', he0, Nat.not_le.mpr hc0, hj0, hh, hco.1]
    refine ⟨hst, htr, ?_⟩
    rw [htr]
    simp only [List.countP_cons, List.countP_append, countP_isAddBlock_map]
    have hcl := chunksOf_length (1024 * 1024) (by norm_num) content.length
      content le_rfl
    simp [isAddBlock, hcl]

/-- A network oracle whose every response is a bare 200 carrying a create
handle. -/
def allOkNet : Nat → Response := fun _ => { emptyResp 200 with handle := some 1 }

/-- C1 witness: both branches of claim_C1 instantiated, at a 3-byte payload
and at a payload one byte over the 10MB threshold. -/
theorem claim_C1_witness :
    ((upload_to_dbfs_simple true allOkNet [1, 2, 3] "/f").2 =
      [ApiCall.put "/f" (b64encode [1, 2, 3]) (some true)]) ∧
    ((upload_to_dbfs_simple true allOkNet
        (List.replicate (10 * 1024 * 1024 + 1) 0) "/f").1.status = "success" ∧
     (upload_to_dbfs_simple true allOkNet
        (List.replicate (10 * 1024 * 1024 + 1) 0) "/f").2 =
       ApiCall.create "/f" true ::
         ((chunksOf (1024 * 1024) (List.replicate (10 * 1024 * 1024 + 1) 0)).map
           (fun ch => ApiCall.addBlock 1 (b64encode ch)) ++
          [ApiCall.close 1]) ∧
     ((upload_to_dbfs_simple true allOkNet
        (List.replicate (10 * 1024 * 1024 + 1) 0) "/f").2.countP isAddBlock) =
       ((List.replicate (10 * 1024 * 1024 + 1) 0).length + 1024 * 1024 - 1) /
         (1024 * 1024)) := by
  constructor
  · exact (claim_C1 allOkNet [1, 2, 3] "/f" 1
      (by intro i; simp [okR, allOkNet, emptyResp]) rfl).1 (by norm_num)
  · exact (claim_C1 allOkNet (List.replicate (10 * 1024 * 1024 + 1) 0) "/f" 1
      (by intro i; simp [okR, allOkNet, emptyResp]) rfl).2
      (by rw [List.length_replicate]; omega)

/-- Oracle for the C2 counterexample: create succeeds with handle 1, the
single add-block call is answered 304 (non-2xx but not an HTTP error), the
close call succeeds. -/
def addBlock304Net : Nat → Response := fun k =>
  if k = 0 then { emptyResp 200 with handle := some 1 }
  else if k = 1 then emptyResp 304 else emptyResp 200

/-- The one-chunk upload against addBlock304Net, evaluated. -/
lemma addBlock304_run :
    dbfs_upload_chunked true addBlock304Net "/p" [9] false 1 =
      (okRes "File uploaded successfully in 1 chunks",
       [ApiCall.create "/p" false, ApiCall.addBlock 1 (b64encode [9]),
        ApiCall.close 1]) := by
  simp only [dbfs_upload_chunked]
  norm_num [addBlock304Net, emptyResp]
  rw [chunkLoop]
  norm_num [addBlock304Net, emptyResp]
  rw [chunkLoop]
  norm_num [addBlock304Net, emptyResp]
  rfl

/-- C2 counterexample: an add-block call answered 304 — a non-2xx response —
does not make dbfs_upload_chunked report an error: raise_for_status raises
only for status >= 400, so the upload continues, issues the close call and
reports success. -/
theorem claim_C2_counterexample :
    ¬(200 ≤ (addBlock304Net 1).code ∧ (addBlock304Net 1).code < 300) ∧
    (dbfs_upload_chunked true addBlock304Net "/p" [9] false 1).1.status =
      "success" ∧
    ApiCall.close 1 ∈
      (dbfs_upload_chunked true addBlock304Net "/p" [9] false 1).2 := by
  refine ⟨by norm_num [addBlock304Net, emptyResp], ?_, ?_⟩
  · rw [addBlock304_run]
    rfl
  · rw [addBlock304_run]
    simp

/-- C2 (amended): for every chunked upload in which some add-block call is
answered with an HTTP error status (4xx/5xx, the statuses raise_for_status
raises on — e.g. the 500 of the spec scenario), dbfs_upload_chunked returns
status "error" and never issues the close call; and the upload is reported as
success only when the close call was issued as the final protocol call and
its response raised no error (status below 400). -/
theorem claim_C2 :
    (∀ net path content ov c hnd j,
      okR (net 0) → (net 0).handle = some hnd →
      (∀ i, i < j → okR (net (1 + i))) →
      j < (chunksOf c content).length →
      (net (1 + j)).exn = false → 400 ≤ (net (1 + j)).code →
      (dbfs_upload_chunked true net path content ov c).1.status = "error" ∧
      (∀ hh, ApiCall.close hh ∉
        (dbfs_upload_chunked true net path content ov c).2)) ∧
    (∀ net path content ov c,
      (dbfs_upload_chunked true net path content ov c).1.status = "success" →
      ∃ hnd, (net 0).handle = some hnd ∧
        (dbfs_upload_chunked true net path content ov c).2 =
          ApiCall.create path ov ::
            ((chunksOf c content).map
              (fun ch => ApiCall.addBlock hnd (b64encode ch)) ++
             [ApiCall.close hnd]) ∧
        (net (1 + (chunksOf c content).length)).exn = false ∧
        (net (1 + (chunksOf c content).length)).code < 400) := by
  constructor
  · intro net path content ov c hnd j hok0 hh hpre hj hexn hcode
    obtain ⟨he0, hc0, hj0⟩ := hok0
    have hfail := chunkLoop_fail net hnd c content.length content 1 0 j le_rfl
      hj hpre hexn hcode
    constructor
    · rw [dbfs_upload_chunked]
      simp [he0, Nat.not_le.mpr hc0, hj0, hh, hfail.1, errRes]
    · intro hh2
      rw [dbfs_upload_chunked]
      simp [he0, Nat.not_le.mpr hc0, hj0, hh, hfail.2]
      intro hmem
      have h2 := List.take_subset _ _ hmem
      simp at h2
  · intro net path content ov c hs
    rw [dbfs_upload_chunked] at hs ⊢
    by_cases he : (net 0).exn
    · simp [he, errRes] at hs
    · by_cases hc : 400 ≤ (net 0).code
      · simp [he, hc, errRes] at hs
      · by_cases hj : (net 0).jsonExn
        · simp [he, hc, hj, errRes] at hs
        · rcases hhd : (net 0).handle with - | hnd
          · simp [he, hc, hj, hhd, errRes] at hs
          · simp only [he, hc, hj, hhd] at hs
            simp [he, hc, hj] at hs
            have hsc := chunkLoop_success_close net hnd c content.length
              content 1 0 le_rfl hs
            refine ⟨hnd, rfl, ?_, hsc.2.1, hsc.2.2⟩
            simp [he, hc, hj, hhd, hsc.1]

/-- Oracle for the amended C2 and C6 witnesses: create succeeds with handle
1, the first add-block call is answered 500. -/
def addBlockFailNet : Nat → Response := fun k =>
  if k = 0 then { emptyResp 200 with handle := some 1 }
  else { emptyResp 500 with text := "boom" }

/-- The chunks of the one-byte upload used by the witnesses. -/
lemma chunksOf_one_nine : chunksOf 1 [9] = [[9]] := by
  rw [chunksOf_cons 1 [9] (by simp), chunksOf_nil_or_zero 1 _ (by simp)]
  rfl

/-- C2 witness: both parts of claim_C2 instantiated — the failing add-block
run aborts without a close call, and the all-success run of
claim_C2_counterexample satisfies the success-implies-close-ok direction. -/
theorem claim_C2_witness :
    ((dbfs_upload_chunked true addBlockFailNet "/p" [9] false 1).1.status =
       "error" ∧
     (∀ hh, ApiCall.close hh ∉
       (dbfs_upload_chunked true addBlockFailNet "/p" [9] false 1).2)) ∧
    (∃ hnd, (addBlock304Net 0).handle = some hnd ∧
      (dbfs_upload_chunked true addBlock304Net "/p" [9] false 1).2 =
        ApiCall.create "/p" false ::
          ((chunksOf 1 [9]).map
            (fun ch => ApiCall.addBlock hnd (b64encode ch)) ++
           [ApiCall.close hnd]) ∧
      (addBlock304Net (1 + (chunksOf 1 [9]).length)).exn = false ∧
      (addBlock304Net (1 + (chunksOf 1 [9]).length)).code < 400) := by
  constructor
  · exact claim_C2.1 addBlockFailNet "/p" [9] false 1 1 0
      (by simp [okR, addBlockFailNet, emptyResp])
      rfl
      (by intro i hi; omega)
      (by rw [chunksOf_one_nine]; norm_num)
      rfl
      (by norm_num [addBlockFailNet, emptyResp])
  · exact claim_C2.2 addBlock304Net "/p" [9] false 1
      (by rw [addBlock304_run]; rfl)

/-- Oracle for the C6 counterexample: the create call is answered 301 — a
non-2xx status — with a handle in the body; everything else succeeds. -/
def create301Net : Nat → Response := fun k =>
  if k = 0 then { emptyResp 301 with handle := some 7 } else emptyResp 200

/-- The one-chunk upload against create301Net, evaluated. -/
lemma create301_run :
    dbfs_upload_chunked true create301Net "/p" [9] false 1 =
      (okRes "File uploaded successfully in 1 chunks",
       [ApiCall.create "/p" false, ApiCall.addBlock 7 (b64encode [9]),
        ApiCall.close 7]) := by
  simp only [dbfs_upload_chunked]
  norm_num [create301Net, emptyResp]
  rw [chunkLoop]
  norm_num [create301Net, emptyResp]
  rw [chunkLoop]
  norm_num [create301Net, emptyResp]
  rfl

/-- C6 counterexample: a non-2xx response (301) at the create step does not
abort the chunked upload: raise_for_status raises only for status >= 400, so
the add-block and close calls are still issued and the upload reports
success. -/
theorem claim_C6_counterexample :
    ¬(200 ≤ (create301Net 0).code ∧ (create301Net 0).code < 300) ∧
    (dbfs_upload_chunked true create301Net "/p" [9] false 1).1.status =
      "success" ∧
    (dbfs_upload_chunked true create301Net "/p" [9] false 1).2 =
      [ApiCall.create "/p" false, ApiCall.addBlock 7 (b64encode [9]),
       ApiCall.close 7] := by
  refine ⟨by norm_num [create301Net, emptyResp], ?_, ?_⟩
  · rw [create301_run]
    rfl
  · rw [create301_run]

/-- C6 (amended): for every chunked upload, a response with an HTTP error
status (4xx/5xx, the statuses raise_for_status raises on) at the create,
add-block or close step aborts the whole operation with no further protocol
calls, the returned error message includes the remote error response text
verbatim, and no step is retried: the trace never exceeds one create, one
add-block per chunk and one close. -/
theorem claim_C6 :
    (∀ net path content ov c,
      (net 0).exn = false → 400 ≤ (net 0).code →
      (dbfs_upload_chunked true net path content ov c).1 =
        errRes ("Chunked upload failed: " ++ httpErrText (net 0).code ++
          " - " ++ (net 0).text) ∧
      (dbfs_upload_chunked true net path content ov c).2 =
        [ApiCall.create path ov]) ∧
    (∀ net path content ov c hnd j,
      okR (net 0) → (net 0).handle = some hnd →
      (∀ i, i < j → okR (net (1 + i))) →
      j < (chunksOf c content).length →
      (net (1 + j)).exn = false → 400 ≤ (net (1 + j)).code →
      (dbfs_upload_chunked true net path content ov c).1 =
        errRes ("Chunked upload failed: " ++ httpErrText (net (1 + j)).code ++
          " - " ++ (net (1 + j)).text) ∧
      (dbfs_upload_chunked true net path content ov c).2 =
        ApiCall.create path ov ::
          ((chunksOf c content).take (j + 1)).map
            (fun ch => ApiCall.addBlock hnd (b64encode ch))) ∧
    (∀ net path content ov c hnd,
      okR (net 0) → (net 0).handle = some hnd →
      (∀ i, i < (chunksOf c content).length → okR (net (1 + i))) →
      (net (1 + (chunksOf c content).length)).exn = false →
      400 ≤ (net (1 + (chunksOf c content).length)).code →
      (dbfs_upload_chunked true net path content ov c).1 =
        errRes ("Chunked upload failed: " ++
          httpErrText (net (1 + (chunksOf c content).length)).code ++ " - " ++
          (net (1 + (chunksOf c content).length)).text)) ∧
    (∀ net path content ov c,
      (dbfs_upload_chunked true net path content ov c).2.length ≤
        (chunksOf c content).length + 2) := by
  refine ⟨?_, ?_, ?_, ?_⟩
  · intro net path content ov c hexn hcode
    rw [dbfs_upload_chunked]
    simp [hexn, hcode]
  · intro net path content ov c hnd j hok0 hh hpre hj hexn hcode
    obtain ⟨he0, hc0, hj0⟩ := hok0
    have hfail := chunkLoop_fail net hnd c content.length content 1 0 j le_rfl
      hj hpre hexn hcode
    constructor
    · rw [dbfs_upload_chunked]
      simp [he0, Nat.not_le.mpr hc0, hj0, hh, hfail.1]
    · rw [dbfs_upload_chunked]
      simp [he0, Nat.not_le.mpr hc0, hj0, hh, hfail.2]
  · intro net path content ov c hnd hok0 hh hpre hexn hcode
    obtain ⟨he0, hc0, hj0⟩ := hok0
    have hfail := chunkLoop_close_fail net hnd c content.length content 1 0
      le_rfl hpre hexn hcode
    rw [dbfs_upload_chunked]
    simp [he0, Nat.not_le.mpr hc0, hj0, hh, hfail.1]
  · intro net path content ov c
    rw [dbfs_upload_chunked]
    by_cases he : (net 0).exn
    · simp [he]
    · by_cases hc : 400 ≤ (net 0).code
      · simp [he, hc]
      · by_cases hj : (net 0).jsonExn
        · simp [he, hc, hj]
        · rcases hhd : (net 0).handle with - | hnd
          · simp [he, hc, hj, hhd]
          · have := chunkLoop_calls_le net hnd c content.length content 1 0
              le_rfl
            simp [he, hc, hj, hhd]
            omega

/-- Oracle for the close-failure witness of C6: create succeeds with handle
2, the single add-block succeeds, the close call is answered 503. -/
def closeFailNet : Nat → Response := fun k =>
  if k = 0 then { emptyResp 200 with handle := some 2 }
  else if k = 1 then emptyResp 200
  else { emptyResp 503 with text := "svc down" }

/-- C6 witness: all four parts of claim_C6 instantiated — a 500 create, a 500
first add-block, a 503 close, and the call-count bound on the all-success
oracle. -/
theorem claim_C6_witness :
    ((dbfs_upload_chunked true (fun _ => { emptyResp 500 with text := "bad" })
        "/p" [9] false 1).1 =
      errRes ("Chunked upload failed: " ++
        httpErrText (( fun _ => { emptyResp 500 with text := "bad" } : Nat → Response) 0).code ++
        " - " ++ ((fun _ => { emptyResp 500 with text := "bad" } : Nat → Response) 0).text) ∧
     (dbfs_upload_chunked true (fun _ => { emptyResp 500 with text := "bad" })
        "/p" [9] false 1).2 = [ApiCall.create "/p" false]) ∧
    ((dbfs_upload_chunked true addBlockFailNet "/p" [9] false 1).1 =
      errRes ("Chunked upload failed: " ++ httpErrText (addBlockFailNet (1 + 0)).code ++
        " - " ++ (addBlockFailNet (1 + 0)).text) ∧
     (dbfs_upload_chunked true addBlockFailNet "/p" [9] false 1).2 =
       ApiCall.create "/p" false ::
         ((chunksOf 1 [9]).take (0 + 1)).map
           (fun ch => ApiCall.addBlock 1 (b64encode ch))) ∧
    ((dbfs_upload_chunked true closeFailNet "/p" [9] false 1).1 =
      errRes ("Chunked upload failed: " ++
        httpErrText (closeFailNet (1 + (chunksOf 1 [9]).length)).code ++ " - " ++
        (closeFailNet (1 + (chunksOf 1 [9]).length)).text)) ∧
    ((dbfs_upload_chunked true allOkNet "/p" [9] false 1).2.length ≤
      (chunksOf 1 [9]).length + 2) := by
  refine ⟨?_, ?_, ?_, ?_⟩
  · exact claim_C6.1 (fun _ => { emptyResp 500 with text := "bad" }) "/p" [9]
      false 1 rfl (by norm_num [emptyResp])
  · exact claim_C6.2.1 addBlockFailNet "/p" [9] false 1 1 0
      (by simp [okR, addBlockFailNet, emptyResp])
      rfl
      (by intro i hi; omega)
      (by rw [chunksOf_one_nine]; norm_num)
      rfl
      (by norm_num [addBlockFailNet, emptyResp])
  · exact claim_C6.2.2.1 closeFailNet "/p" [9] false 1 2
      (by simp [okR, closeFailNet, emptyResp])
      rfl
      (by intro i hi; rw [chunksOf_one_nine] at hi; simp at hi
          subst hi
          simp [okR, closeFailNet, emptyResp])
      (by rw [chunksOf_one_nine]; rfl)
      (by rw [chunksOf_one_nine]; norm_num [closeFailNet, emptyResp])
  · exact claim_C6.2.2.2 allOkNet "/p" [9] false 1

/-- C3: the polling loop of run_job performs at most 60 status polls and then
terminates; the attempt counter is incremented on every iteration, including
iterations whose status request is answered non-200, so an all-non-200 run
polls exactly 60 times and returns the distinct timeout outcome ("Job timed
out after 60 attempts"); a TERMINATED/SUCCESS poll yields the success
outcome and a TERMINATED poll with any other result state yields the distinct
terminal-failure outcome. -/
theorem claim_C3 :
    (∀ creds net job_id,
      ((run_job creds net job_id).2.countP isRunsGet) ≤ 60) ∧
    (∀ net job_id rid,
      (net 0).exn = false → (net 0).code = 200 → (net 0).jsonExn = false →
      (net 0).run_id = some rid →
      (∀ k, 1 ≤ k → (net k).exn = false ∧ (net k).code ≠ 200) →
      run_job true net job_id =
        (timeoutRes rid,
         ApiCall.runNow job_id :: List.replicate 60 (ApiCall.runsGet rid))) ∧
    (∀ net job_id rid,
      (net 0).exn = false → (net 0).code = 200 → (net 0).jsonExn = false →
      (net 0).run_id = some rid →
      (net 1).exn = false → (net 1).code = 200 → (net 1).jsonExn = false →
      (net 1).lcs = some "TERMINATED" → (net 1).rs = some "SUCCESS" →
      (run_job true net job_id).1 =
        { status := "success", message := "Job completed successfully",
          run_id := some rid, result_state := some "SUCCESS",
          content := none }) ∧
    (∀ net job_id rid s,
      (net 0).exn = false → (net 0).code = 200 → (net 0).jsonExn = false →
      (net 0).run_id = some rid →
      (net 1).exn = false → (net 1).code = 200 → (net 1).jsonExn = false →
      (net 1).lcs = some "TERMINATED" → (net 1).rs = some s →
      s ≠ "SUCCESS" →
      (run_job true net job_id).1 =
        { status := "error", message := "Job failed with state: " ++ s,
          run_id := some rid, result_state := some s, content := none }) := by
  refine ⟨?_, ?_, ?_, ?_⟩
  · intro creds net job_id
    rcases creds with - | -
    · simp [run_job]
    · rw [run_job]
      by_cases he : (net 0).exn
      · simp [he, errRes, List.countP, List.countP.go, isRunsGet]
      · by_cases hc : (net 0).code = 200
        · by_cases hj : (net 0).jsonExn
          · simp [he, hc, hj, errRes, List.countP, List.countP.go, isRunsGet]
          · rcases hr : (net 0).run_id with - | rid
            · simp [he, hc, hj, hr, errRes, List.countP, List.countP.go,
                isRunsGet]
            · have hlen := pollLoop_len (fun a => net (1 + a)) rid 60 0
                (by omega)
              have hcp := List.countP_le_length (l :=
                (pollLoop (fun a => net (1 + a)) rid 0).2) (p := isRunsGet)
              simp [he, hc, hj, hr, List.countP_cons, isRunsGet]
              omega
        · by_cases hj : (net 0).jsonExn
          · simp [he, hc, hj, errRes, List.countP, List.countP.go, isRunsGet]
          · simp [he, hc, hj, errRes, List.countP, List.countP.go, isRunsGet]
  · intro net job_id rid hexn hcode hjson hrid hpoll
    have hnet : ∀ i, ((fun a => net (1 + a)) i).exn = false ∧
        ((fun a => net (1 + a)) i).code ≠ 200 := by
      intro i
      exact hpoll (1 + i) (by omega)
    have hp := pollLoop_all_non200 (fun a => net (1 + a)) rid hnet 60 0
      (by omega)
    rw [run_job]
    simp [hexn, hcode, hjson, hrid, hp]
  · intro net job_id rid hexn hcode hjson hrid h1e h1c h1j h1l h1r
    have hp : (pollLoop (fun a => net (1 + a)) rid 0).1 =
        { status := "success", message := "Job completed successfully",
          run_id := some rid, result_state := some "SUCCESS",
          content := none } := by
      rw [pollLoop]
      simp [h1e, h1c, h1j, h1l, h1r]
    rw [run_job]
    simp [hexn, hcode, hjson, hrid, hp]
  · intro net job_id rid s hexn hcode hjson hrid h1e h1c h1j h1l h1r hs
    have hneq : ¬(net 1).rs = some "SUCCESS" := by
      rw [h1r]
      simp [hs]
    have hp : (pollLoop (fun a => net (1 + a)) rid 0).1 =
        { status := "error", message := "Job failed with state: " ++ s,
          run_id := some rid, result_state := some s, content := none } := by
      rw [pollLoop]
      simp [h1e, h1c, h1j, h1l, h1r, hneq, hs, optStr]
    rw [run_job]
    simp [hexn, hcode, hjson, hrid, hp]

/-- Oracle for the C3 timeout witness: the trigger succeeds with run_id 7,
every status poll is answered 500. -/
def timeoutNet : Nat → Response := fun k =>
  if k = 0 then { emptyResp 200 with run_id := some 7 } else emptyResp 500

/-- Oracle for the C3 success witness: the trigger succeeds with run_id 7,
every status poll reports TERMINATED with result state SUCCESS. -/
def successNet : Nat → Response := fun k =>
  if k = 0 then { emptyResp 200 with run_id := some 7 }
  else { emptyResp 200 with lcs := some "TERMINATED", rs := some "SUCCESS" }

/-- Oracle for the C3 terminal-failure witness: the trigger succeeds with
run_id 7, every status poll reports TERMINATED with result state FAILED. -/
def failedNet : Nat → Response := fun k =>
  if k = 0 then { emptyResp 200 with run_id := some 7 }
  else { emptyResp 200 with lcs := some "TERMINATED", rs := some "FAILED" }

/-- C3 witness: the poll-count bound, the all-non-200 timeout run, the
success run and the terminal-failure run of claim_C3, each at a concrete
oracle. -/
theorem claim_C3_witness :
    (((run_job true timeoutNet 3).2.countP isRunsGet) ≤ 60) ∧
    (run_job true timeoutNet 3 =
      (timeoutRes 7,
       ApiCall.runNow 3 :: List.replicate 60 (ApiCall.runsGet 7))) ∧
    ((run_job true successNet 3).1 =
      { status := "success", message := "Job completed successfully",
        run_id := some 7, result_state := some "SUCCESS", content := none }) ∧
    ((run_job true failedNet 3).1 =
      { status := "error", message := "Job failed with state: " ++ "FAILED",
        run_id := some 7, result_state := some "FAILED", content := none }) := by
  refine ⟨?_, ?_, ?_, ?_⟩
  · exact claim_C3.1 true timeoutNet 3
  · exact claim_C3.2.1 timeoutNet 3 7 rfl rfl rfl rfl
      (by intro k hk
          have hkz : ¬k = 0 := by omega
          simp [timeoutNet, hkz, emptyResp])
  · exact claim_C3.2.2.1 successNet 3 7 rfl rfl rfl rfl rfl rfl rfl rfl rfl
  · exact claim_C3.2.2.2 failedNet 3 7 "FAILED" rfl rfl rfl rfl rfl rfl rfl
      rfl rfl (by decide)

/-- C4: with a well-formed 200 status response carrying life_cycle_state lc,
the polling loop of run_job exits before the attempt bound only when lc is
one of the terminal states TERMINATED, SKIPPED, INTERNAL_ERROR — on any
other state (PENDING, RUNNING, TERMINATING, ...) it continues polling — and
on TERMINATED it returns status "success" if and only if result_state is
SUCCESS; every other terminal outcome yields status "error". -/
theorem claim_C4 (net : Nat → Response) (rid : Int) (a : Nat) (h60 : a < 60)
    (hexn : (net a).exn = false) (hcode : (net a).code = 200)
    (hjson : (net a).jsonExn = false) (lc : String)
    (hlcs : (net a).lcs = some lc) :
    (lc ≠ "TERMINATED" → lc ≠ "INTERNAL_ERROR" → lc ≠ "SKIPPED" →
      pollLoop net rid a =
        ((pollLoop net rid (a + 1)).1,
         ApiCall.runsGet rid :: (pollLoop net rid (a + 1)).2)) ∧
    (lc = "TERMINATED" →
      ((pollLoop net rid a).1.status = "success" ↔
        (net a).rs = some "SUCCESS")) ∧
    (lc = "TERMINATED" → (net a).rs ≠ some "SUCCESS" →
      (pollLoop net rid a).1.status = "error" ∧
      (pollLoop net rid a).2 = [ApiCall.runsGet rid]) ∧
    ((lc = "INTERNAL_ERROR" ∨ lc = "SKIPPED") →
      (pollLoop net rid a).1 =
        { status := "error", message := "Job ended with state: " ++ lc,
          run_id := some rid, result_state := none, content := none } ∧
      (pollLoop net rid a).2 = [ApiCall.runsGet rid]) := by
  refine ⟨?_, ?_, ?_, ?_⟩
  · intro ht hi hsk
    rw [pollLoop]
    simp [h60, hexn, hcode, hjson, hlcs, ht, hi, hsk]
  · intro ht
    subst ht
    rw [pollLoop]
    by_cases hr : (net a).rs = some "SUCCESS"
    · simp [h60, hexn, hcode, hjson, hlcs, hr]
    · simp [h60, hexn, hcode, hjson, hlcs, hr]
  · intro ht hr
    subst ht
    rw [pollLoop]
    simp [h60, hexn, hcode, hjson, hlcs, hr]
  · intro hterm
    rw [pollLoop]
    have hne : lc ≠ "TERMINATED" := by
      rcases hterm with h | h <;> subst h <;> decide
    simp [h60, hexn, hcode, hjson, hlcs, hne, hterm]

/-- A constant oracle reporting TERMINATED with result state SUCCESS on
every status poll. -/
def termSuccessNet : Nat → Response :=
  fun _ => { emptyResp 200 with lcs := some "TERMINATED", rs := some "SUCCESS" }

/-- C4 witness: claim_C4 at attempt 0 against a constant TERMINATED/SUCCESS
oracle, instantiating the TERMINATED if-and-only-if part. -/
theorem claim_C4_witness :
    (pollLoop termSuccessNet 7 0).1.status = "success" ↔
      (termSuccessNet 0).rs = some "SUCCESS" :=
  (claim_C4 termSuccessNet 7 0 (by omega) rfl rfl rfl "TERMINATED"
      rfl).2.1 rfl

/-- C7: load_predictions_smart tries its four candidate remote paths in the
fixed source order, returns the parsed content of the first path that both
reads successfully and parses as CSV, skips paths that read but fail to
parse, and when no candidate succeeds falls through to the fallback search,
which reports None — not an error — when nothing parseable exists. -/
theorem claim_C7 (Df : Type) (listF : String → ListRes)
    (readF : String → ApiResult) (parse : String → Option Df) (sid : String) :
    predictionPatterns sid =
      ["/FileStore/results/" ++ sid ++ "/predictions.csv",
       "/FileStore/results/" ++ sid ++ "/predictions_sample.csv",
       "/FileStore/results/" ++ sid ++ "/predictions_direct.csv",
       "/FileStore/tmp/" ++ sid ++ "/predictions.csv"] ∧
    (∀ df,
      (predictionPatterns sid).findSome? (fun p =>
        if (readF p).status = "success" then (readF p).content.bind parse
        else none) = some df →
      load_predictions_smart listF readF parse sid = some df) ∧
    ((predictionPatterns sid).findSome? (fun p =>
        if (readF p).status = "success" then (readF p).content.bind parse
        else none) = none →
      load_predictions_smart listF readF parse sid =
        enhanced_debug_prediction_files listF readF parse sid) ∧
    ((∀ s, parse s = none) →
      load_predictions_smart listF readF parse sid = none) := by
  refine ⟨rfl, ?_, ?_, ?_⟩
  · intro df hfind
    rw [load_predictions_smart, tryPatterns_eq_findSome, hfind]
  · intro hfind
    rw [load_predictions_smart, tryPatterns_eq_findSome, hfind]
  · intro hp
    have hpick : ∀ p : String,
        (if (readF p).status = "success" then (readF p).content.bind parse
         else none) = none := by
      intro p
      by_cases hs : (readF p).status = "success"
      · rcases hc : (readF p).content with - | c
        · simp [hs, hc]
        · simp [hs, hc, hp]
      · simp [hs]
    have hfind : (predictionPatterns sid).findSome? (fun p =>
        if (readF p).status = "success" then (readF p).content.bind parse
        else none) = none := by
      simp [predictionPatterns, List.findSome?_cons, hpick]
    rw [load_predictions_smart, tryPatterns_eq_findSome, hfind]
    have hscan : ∀ files, scanFiles readF parse files = [] := by
      intro files
      rw [scanFiles, List.filterMap_eq_nil_iff]
      intro fi hmem
      by_cases hcsv : fi.path.endsWith ".csv" ∧ fi.is_dir = false
      · by_cases hs : (readF fi.path).status = "success"
        · rcases hc : (readF fi.path).content with - | c
          · simp [hcsv, hs, hc]
          · simp [hcsv, hs, hc, hp]
        · simp [hcsv, hs]
      · simp [hcsv]
    rw [enhanced_debug_prediction_files]
    simp [hscan]

/-- C7 witness: both fallback parts of claim_C7 instantiated — with nothing
parseable the loader returns none, and with an unreadable remote it falls
through to the fallback search. -/
theorem claim_C7_witness :
    (load_predictions_smart (fun _ => { status := "error", files := [] })
      (fun _ => errRes "nope") (fun _ => (none : Option Nat)) "S" = none) ∧
    (load_predictions_smart (fun _ => { status := "error", files := [] })
      (fun _ => errRes "nope") (fun _ => (some 42 : Option Nat)) "S" =
      enhanced_debug_prediction_files
        (fun _ => { status := "error", files := [] })
        (fun _ => errRes "nope") (fun _ => (some 42 : Option Nat)) "S") := by
  constructor
  · exact (claim_C7 Nat (fun _ => { status := "error", files := [] })
      (fun _ => errRes "nope") (fun _ => none) "S").2.2.2 (fun s => rfl)
  · exact (claim_C7 Nat (fun _ => { status := "error", files := [] })
      (fun _ => errRes "nope") (fun _ => some 42) "S").2.2.1 rfl

/-- C8: every transmitted payload is base64-encoded before transmission in
the databricks_api.py upload paths — the whole file in the single-shot path,
each chunk in the chunked path — while the dbx_utils.upload_file_to_dbfs
variant first transmits the content hex-encoded and repeats the request
base64-encoded only when the first response is not 200. -/
theorem claim_C8 :
    (∀ net path content ov, List.length content ≤ 10 * 1024 * 1024 →
      (dbfs_put_single true net path content ov).2 =
        [ApiCall.put path (b64encode content) (some ov)]) ∧
    (∀ net path content ov c hnd d,
      ApiCall.addBlock hnd d ∈
        (dbfs_upload_chunked true net path content ov c).2 →
      ∃ ch ∈ chunksOf c content, d = b64encode ch) ∧
    (∀ net data path,
      ((net 0).exn = true →
        (upload_file_to_dbfs net data path).2 =
          [ApiCall.put path (hexEncode data) none]) ∧
      ((net 0).exn = false → (net 0).code = 200 →
        (upload_file_to_dbfs net data path).2 =
          [ApiCall.put path (hexEncode data) none]) ∧
      ((net 0).exn = false → (net 0).code ≠ 200 →
        (upload_file_to_dbfs net data path).2 =
          [ApiCall.put path (hexEncode data) none,
           ApiCall.put path (b64encode data) none])) := by
  refine ⟨?_, ?_, ?_⟩
  · intro net path content ov hlen
    rw [dbfs_put_single]
    by_cases he : (net 0).exn
    · simp [Nat.not_lt.mpr hlen, he]
    · by_cases hc : 400 ≤ (net 0).code
      · simp [Nat.not_lt.mpr hlen, he, hc]
      · simp [Nat.not_lt.mpr hlen, he, hc]
  · intro net path content ov c hnd d hmem
    rw [dbfs_upload_chunked] at hmem
    by_cases he : (net 0).exn
    · simp [he] at hmem
    · by_cases hc : 400 ≤ (net 0).code
      · simp [he, hc] at hmem
      · by_cases hj : (net 0).jsonExn
        · simp [he, hc, hj] at hmem
        · rcases hhd : (net 0).handle with - | hnd2
          · simp [he, hc, hj, hhd] at hmem
          · simp [he, hc, hj, hhd, List.mem_cons] at hmem
            exact chunkLoop_addBlock_data net hnd2 c content.length content
              1 0 le_rfl hnd d hmem
  · intro net data path
    refine ⟨?_, ?_, ?_⟩
    · intro he
      rw [upload_file_to_dbfs]
      simp [he]
    · intro he hc
      rw [upload_file_to_dbfs]
      by_cases hj0 : (net 0).jsonExn
      · simp [he, hc, hj0]
      · simp [he, hc, hj0]
    · intro he hc
      rw [upload_file_to_dbfs]
      by_cases h2e : (net 1).exn
      · simp [he, hc, h2e]
      · by_cases h2c : 400 ≤ (net 1).code
        · simp [he, hc, h2e, h2c]
        · by_cases h2j : (net 1).jsonExn
          · simp [he, hc, h2e, h2c, h2j]
          · simp [he, hc, h2e, h2c, h2j]

/-- C8 witness: the three parts of claim_C8 instantiated — a 3-byte
single-shot upload, a concrete add-block membership in a one-chunk upload,
and the hex-then-base64 fallback against an all-400 remote. -/
theorem claim_C8_witness :
    ((dbfs_put_single true allOkNet "/f" [5, 6] false).2 =
      [ApiCall.put "/f" (b64encode [5, 6]) (some false)]) ∧
    (∃ ch ∈ chunksOf 1 [9], b64encode [9] = b64encode ch) ∧
    ((upload_file_to_dbfs (fun _ => emptyResp 400) [7] "/g").2 =
      [ApiCall.put "/g" (hexEncode [7]) none,
       ApiCall.put "/g" (b64encode [7]) none]) := by
  refine ⟨?_, ?_, ?_⟩
  · exact claim_C8.1 allOkNet "/f" [5, 6] false (by norm_num)
  · refine claim_C8.2.1 allOkNet "/p" [9] false 1 1 (b64encode [9]) ?_
    have hrun : dbfs_upload_chunked true allOkNet "/p" [9] false 1 =
        (okRes "File uploaded successfully in 1 chunks",
         [ApiCall.create "/p" false, ApiCall.addBlock 1 (b64encode [9]),
          ApiCall.close 1]) := by
      simp only [dbfs_upload_chunked]
      norm_num [allOkNet, emptyResp]
      rw [chunkLoop]
      norm_num [allOkNet, emptyResp]
      rw [chunkLoop]
      norm_num [allOkNet, emptyResp]
      rfl
    rw [hrun]
    simp
  · exact (claim_C8.2.2 (fun _ => emptyResp 400) [7] "/g").2.2 rfl
      (by norm_num [emptyResp])

/-- C5 witness: both parts of claim_C5 instantiated — a 404 trigger response
yields an error dict without a run_id, and a jobs list without the requested
name makes run_job_now fail after the list call only. -/
theorem claim_C5_witness :
    ((run_job true (fun _ => emptyResp 404) 3).1.status = "error" ∧
     (run_job true (fun _ => emptyResp 404) 3).1.run_id = none) ∧
    ((run_job_now (fun _ => { emptyResp 200 with
        jobs := some [{ name := some "other", job_id := 5 }] }) "target").1 =
      Except.error ("Job with name '" ++ "target" ++
        "' not found in Databricks workspace.") ∧
     (run_job_now (fun _ => { emptyResp 200 with
        jobs := some [{ name := some "other", job_id := 5 }] }) "target").2 =
      [ApiCall.jobsList]) := by
  constructor
  · exact claim_C5.1 true (fun _ => emptyResp 404) 3
      (by norm_num [emptyResp])
  · exact claim_C5.2 (fun _ => { emptyResp 200 with
        jobs := some [{ name := some "other", job_id := 5 }] }) "target"
      rfl (by norm_num [emptyResp]) rfl
      (by intro j hj
          simp at hj
          subst hj
          simp)
